import Mathlib

/-!
Verification of the `anymap` crate (a type-indexed heterogeneous map) against
its specification.

The embedding (shallow):

* `TypeId::of::<T>()` — types are keyed by an abstract key type `ι` with
  decidable equality; distinct Rust types have distinct keys (this is exactly
  `std::any::TypeId`'s contract).  A function `interp : ι → Type` gives, for
  every key, the Lean type of the values of the Rust type it identifies.
* `Box<dyn Any>` — a trait object carries its concrete runtime type (the
  vtable) next to the data; it is modelled by `BoxAny`, a dependent pair of a
  runtime key `tid` and a value of type `interp tid`.
* `HashMap<TypeId, Box<dyn Any>>` (the field `AnyMap.data` of `src/lib.rs`,
  equally the field `RawMap.inner` of `src/raw.rs`) — modelled as `AList`,
  an association list with unique keys.  Hashing (`TypeIdHasher`) and
  capacity are performance details with no observable effect on the claims.
* the unchecked downcasts of `src/lib.rs` / `src/any.rs` — `transmute` of the
  trait object's data pointer with zero runtime check.  On a type mismatch
  the Rust code has undefined behaviour; the model returns `default` there
  ("really wacky output"), and on a match it returns the stored value.
* `&mut T` mutation — a reference produced by `get_mut::<T>` / `fetch::<T>`
  points at the payload of the box filed under `TypeId::of::<T>`; an
  assignment through it is modelled by `write_through`, which replaces that
  slot's payload (the vtable, i.e. the runtime type, stays `T`).

Fallible operations return `Option`, exactly as in the source.  Stateful
operations return the resulting map explicitly.
-/

namespace Anymap

variable {ι : Type} [DecidableEq ι]

/-- A `Box<dyn Any>` trait object: the concrete runtime type (`tid`, the
vtable) together with the owned value of that type. -/
structure BoxAny (interp : ι → Type) : Type where
  tid : ι
  val : interp tid

/-- The untyped store: `HashMap<TypeId, Box<dyn Any>>`, the `data` field of
`AnyMap` (src/lib.rs) and the `inner` field of `RawMap` (src/raw.rs),
modelled as an association list with unique keys. -/
abbrev RawMap (interp : ι → Type) : Type :=
  AList fun _ : ι => BoxAny interp

/-- The public typed map of src/lib.rs is a thin owner of the untyped store
(no extra state). -/
abbrev AnyMap (interp : ι → Type) : Type := RawMap interp

variable {interp : ι → Type}

/-- `downcast_ref_unchecked::<T>` (src/lib.rs lines 57-66): reinterpret the
trait object's data pointer as a `&T` with zero runtime check.  When the
runtime type really is `T` this yields the stored value; otherwise the Rust
code is undefined behaviour, modelled by an arbitrary `default` value. -/
def downcast_ref_unchecked [∀ t, Inhabited (interp t)] (T : ι)
    (b : BoxAny interp) : interp T :=
  if h : b.tid = T then h ▸ b.val else default

/-- `downcast_mut_unchecked::<T>` (src/lib.rs lines 75-84): the `&mut`
variant of the unchecked downcast; same reinterpretation. -/
def downcast_mut_unchecked [∀ t, Inhabited (interp t)] (T : ι)
    (b : BoxAny interp) : interp T :=
  if h : b.tid = T then h ▸ b.val else default

/-- `downcast_unchecked::<T>` on `Box<dyn Any>` (src/lib.rs lines 93-105):
take ownership and reinterpret as `Box<T>`, no runtime check. -/
def downcast_unchecked [∀ t, Inhabited (interp t)] (T : ι)
    (b : BoxAny interp) : interp T :=
  if h : b.tid = T then h ▸ b.val else default

namespace AnyMap

/-- `AnyMap::new` (src/lib.rs lines 141-145): the empty map. -/
def new (interp : ι → Type) : AnyMap interp := ∅

/-- `AnyMap::get::<T>` (src/lib.rs lines 225-228): look up the box filed
under `TypeId::of::<T>` and downcast it, unchecked. -/
def get [∀ t, Inhabited (interp t)] (T : ι) (m : AnyMap interp) :
    Option (interp T) :=
  (AList.lookup T m).map (downcast_ref_unchecked T)

/-- `AnyMap::get_mut::<T>` (src/lib.rs lines 233-236): as `get`, through the
mutable unchecked downcast. -/
def get_mut [∀ t, Inhabited (interp t)] (T : ι) (m : AnyMap interp) :
    Option (interp T) :=
  (AList.lookup T m).map (downcast_mut_unchecked T)

/-- `AnyMap::insert::<T>` (src/lib.rs lines 242-245): file `Box::new(value)`
under `TypeId::of::<T>` (the underlying `HashMap::insert`, which is
`RawMap::insert` of src/raw.rs lines 236-238); the previous box, if any, is
downcast unchecked and returned.  Returns (prior value, resulting map). -/
def insert [∀ t, Inhabited (interp t)] (T : ι) (value : interp T)
    (m : AnyMap interp) : Option (interp T) × AnyMap interp :=
  ((AList.lookup T m).map (downcast_unchecked T),
    AList.insert T ⟨T, value⟩ m)

/-- `AnyMap::remove::<T>` (src/lib.rs lines 250-253): remove the box filed
under `TypeId::of::<T>`, downcasting it unchecked.  Returns (removed value,
resulting map). -/
def remove [∀ t, Inhabited (interp t)] (T : ι) (m : AnyMap interp) :
    Option (interp T) × AnyMap interp :=
  ((AList.lookup T m).map (downcast_unchecked T), AList.erase T m)

/-- `AnyMap::contains::<T>` (src/lib.rs lines 257-259): `HashMap::contains_key`
on `TypeId::of::<T>`. -/
def contains (T : ι) (m : AnyMap interp) : Bool :=
  (AList.lookup T m).isSome

/-- `AnyMap::len` (src/lib.rs lines 279-281): the underlying map's number of
entries. -/
def len (m : AnyMap interp) : Nat :=
  m.entries.length

/-- `AnyMap::is_empty` (src/lib.rs lines 286-288). -/
def is_empty (m : AnyMap interp) : Bool :=
  len m == 0

/-- `AnyMap::clear` (src/lib.rs lines 306-308): remove every entry (the kept
allocation is a performance detail). -/
def clear (m : AnyMap interp) : AnyMap interp := ∅

/-- Assignment through a `&mut T` obtained from `get_mut::<T>`, an occupied
entry, or `fetch::<T>`: the reference points at the payload of the box filed
under `TypeId::of::<T>` (its vtable, hence runtime type, is unchanged and the
written value has type `T`), so the slot under that key now holds the written
value. -/
def write_through (T : ι) (value : interp T) (m : AnyMap interp) :
    AnyMap interp :=
  AList.insert T ⟨T, value⟩ m

end AnyMap

/-- The `Entry` of src/raw.rs (lines 288-293): a two-variant view of one slot
of the store.  The Rust entry borrows the map in place; the functional model
carries the borrowed map in the variant, and the `Occupied` variant
additionally carries the content of its live slot (what `hash_map`'s
`OccupiedEntry` points at).  `Map::entry` only ever builds a consistent pair:
the carried box is the one filed under the entry's key. -/
inductive Entry (interp : ι → Type) (key : ι) : Type where
  | Occupied : BoxAny interp → RawMap interp → Entry interp key
  | Vacant : RawMap interp → Entry interp key

namespace RawMap

/-- `RawMap::entry` (src/raw.rs lines 193-202): look the key up and wrap the
slot as `Occupied` or `Vacant`. -/
def entry (key : ι) (m : RawMap interp) : Entry interp key :=
  match AList.lookup key m with
  | some b => Entry.Occupied b m
  | none => Entry.Vacant m

end RawMap

namespace Entry

/-- `Entry::or_insert` (src/raw.rs lines 301-306): occupied collapses to
`into_mut` (no modification of the map), vacant to `VacantEntry::insert`,
which files `default` under the entry's key and hands back a reference to it.
Returns (the value the returned reference points at, the resulting map). -/
def or_insert {key : ι} (e : Entry interp key) (default : BoxAny interp) :
    BoxAny interp × RawMap interp :=
  match e with
  | Occupied b m => (b, m)
  | Vacant m => (default, AList.insert key default m)

end Entry

/-- Modelled from the spec: the typed `or_insert(default)` convenience of the
Entry Protocol ("A composed convenience `or_insert(default)` /
`or_insert_with(closure)` collapses to `Occupied.into_mut()` or
`Vacant.insert(...)` in one step, avoiding a double type-keyed lookup").
src/raw.rs provides the untyped `Entry::or_insert` (lines 301-306) it
collapses to; the typed glue — which boxes a default of type `T`, pairs it
with the key `TypeId::of::<T>` exactly as `VacantEntry::insert` of src/lib.rs
lines 382-384 does, and downcasts the returned reference — is not under src/
and is modelled from the spec's words. -/
def AnyMap.or_insert [∀ t, Inhabited (interp t)] (T : ι) (default : interp T)
    (m : AnyMap interp) : interp T × AnyMap interp :=
  (downcast_mut_unchecked T (Entry.or_insert (RawMap.entry T m) ⟨T, default⟩).1,
    (Entry.or_insert (RawMap.entry T m) ⟨T, default⟩).2)

/-- The `Fetcher` of src/fetch.rs (lines 10-13): an exclusive borrowing
session over one map, together with the set of type keys already issued as
mutable loans (`mask : HashSet<TypeId>`). -/
structure Fetcher (interp : ι → Type) where
  mask : Finset ι
  map : AnyMap interp

namespace Fetcher

/-- `Fetcher::new` (src/fetch.rs lines 17-22): empty mask over the borrowed
map. -/
def new (m : AnyMap interp) : Fetcher interp :=
  { mask := ∅, map := m }

/-- `Fetcher::fetch::<T>` (src/fetch.rs lines 29-42): first insert
`TypeId::of::<T>` into the mask; if it was already there, return `None`.
Otherwise return `map.get_mut::<T>()` (itself `None` when no value of type
`T` is stored — the key stays in the mask in that case too).  The returned
reference's lifetime is rebound to the session (a transmute changing only
the lifetime); reads and writes through it address the map, not the fetcher.
Returns (fetched value, resulting fetcher state). -/
def fetch [∀ t, Inhabited (interp t)] (T : ι) (f : Fetcher interp) :
    Option (interp T) × Fetcher interp :=
  let f1 : Fetcher interp := { mask := insert T f.mask, map := f.map }
  if T ∈ f.mask then (none, f1)
  else (AnyMap.get_mut T f.map, f1)

end Fetcher

/-- The store invariant of the spec (§3): for every entry, the box's actual
runtime type equals the type identified by its key. -/
def TypeCorrect (m : AnyMap interp) : Prop :=
  ∀ p ∈ m.entries, (p.2 : BoxAny interp).tid = p.1

instance (m : AnyMap interp) : Decidable (TypeCorrect m) := by
  unfold TypeCorrect; infer_instance

/-- A concrete instantiation for evaluation: type keys are naturals and every
keyed type's values are naturals (two distinct Rust types holding `usize`,
say, still get distinct `TypeId`s — the key, not the payload type, is the
identity). -/
abbrev natInterp : Nat → Type := fun _ => Nat

instance (t : Nat) : Inhabited (natInterp t) := ⟨0⟩

/-- A concrete two-entry map for evaluation: the type keyed `0` holds `5`,
the type keyed `1` holds `9`. -/
def mW : AnyMap natInterp :=
  AList.insert 1 ⟨1, 9⟩ (AList.insert 0 ⟨0, 5⟩ ∅)

/-- A fresh fetcher session over `mW`. -/
def fW : Fetcher natInterp := Fetcher.new mW

/-- The session state after fetching the type keyed `0` from `fW`. -/
def gW : Fetcher natInterp := (Fetcher.fetch 0 fW).2

/-- Evaluating any unchecked downcast on a box whose runtime type matches the
target type yields the stored value. -/
theorem downcast_mk (T : ι) (v : interp T) [∀ t, Inhabited (interp t)] :
    downcast_unchecked T (⟨T, v⟩ : BoxAny interp) = v :=
  dif_pos rfl

theorem downcast_ref_mk (T : ι) (v : interp T) [∀ t, Inhabited (interp t)] :
    downcast_ref_unchecked T (⟨T, v⟩ : BoxAny interp) = v :=
  dif_pos rfl

theorem downcast_mut_mk (T : ι) (v : interp T) [∀ t, Inhabited (interp t)] :
    downcast_mut_unchecked T (⟨T, v⟩ : BoxAny interp) = v :=
  dif_pos rfl

/-- The three unchecked downcasts are one and the same reinterpretation. -/
theorem downcast_ref_eq_downcast [∀ t, Inhabited (interp t)] (T : ι)
    (b : BoxAny interp) :
    downcast_ref_unchecked T b = downcast_unchecked T b := rfl

theorem downcast_mut_eq_downcast [∀ t, Inhabited (interp t)] (T : ι)
    (b : BoxAny interp) :
    downcast_mut_unchecked T b = downcast_unchecked T b := rfl

/-- The store invariant survives filing a box of type `T` under the key of
`T` (the only shape of box any typed insertion ever files). -/
theorem typeCorrect_insert {m : AnyMap interp} (T : ι) (v : interp T)
    (h : TypeCorrect m) : TypeCorrect (AList.insert T ⟨T, v⟩ m) := by
  intro p hp
  rw [AList.insert_entries] at hp
  rcases List.mem_cons.mp hp with rfl | hp
  · rfl
  · exact h p ((List.kerase_sublist T m.entries).subset hp)

/-- The store invariant survives erasing a key. -/
theorem typeCorrect_erase {m : AnyMap interp} (T : ι)
    (h : TypeCorrect m) : TypeCorrect (AList.erase T m) := fun p hp =>
  h p ((List.kerase_sublist T m.entries).subset hp)

/-- Under the store invariant, the box found under a key has that key as its
runtime type. -/
theorem typeCorrect_lookup {m : AnyMap interp} {T : ι} {b : BoxAny interp}
    (h : TypeCorrect m) (hb : AList.lookup T m = some b) : b.tid = T :=
  h ⟨T, b⟩ (AList.mem_lookup_iff.mp (Option.mem_def.mpr hb))

/-- C2: Round-trip — for every type `T` and every value `v` of type `T`,
inserting `v` into a map and then calling `get::<T>()` returns `Some` of that
same value `v`. -/
theorem insert_get_roundtrip [∀ t, Inhabited (interp t)]
    (m : AnyMap interp) (T : ι) (v : interp T) :
    AnyMap.get T (AnyMap.insert T v m).2 = some v := by
  simp [AnyMap.get, AnyMap.insert, AList.lookup_insert, downcast_ref_mk]

/-- C4: Insert returns the prior value — on a map `m` holding `v1` of type
`T`, `insert::<T>(v2)` returns `Some v1` and a subsequent `get::<T>()`
returns `Some v2`; on a map `m'` holding no value of type `T`,
`insert::<T>(v2)` returns `None`.  Overwriting is an ordinary result, never
an error. -/
theorem insert_returns_prior [∀ t, Inhabited (interp t)]
    (m m' : AnyMap interp) (T : ι) (v1 v2 : interp T)
    (h : AnyMap.get T m = some v1) (h' : AnyMap.contains T m' = false) :
    (AnyMap.insert T v2 m).1 = some v1
    ∧ AnyMap.get T (AnyMap.insert T v2 m).2 = some v2
    ∧ (AnyMap.insert T v2 m').1 = none := by
  refine ⟨h, ?_, ?_⟩
  · simp [AnyMap.get, AnyMap.insert, AList.lookup_insert, downcast_ref_mk]
  · have hl : AList.lookup T m' = none :=
      Option.not_isSome_iff_eq_none.mp (by simpa [AnyMap.contains] using h')
    simp [AnyMap.insert, hl]

/-- C5: Removal empties — after inserting a value `v` of type `T`,
`remove::<T>()` returns `Some v`, and afterwards `get::<T>()` returns `None`
and `contains::<T>()` returns `false`. -/
theorem removal_empties [∀ t, Inhabited (interp t)]
    (m : AnyMap interp) (T : ι) (v : interp T) :
    (AnyMap.remove T (AnyMap.insert T v m).2).1 = some v
    ∧ AnyMap.get T (AnyMap.remove T (AnyMap.insert T v m).2).2 = none
    ∧ AnyMap.contains T (AnyMap.remove T (AnyMap.insert T v m).2).2 = false := by
  refine ⟨?_, ?_, ?_⟩
  · simp [AnyMap.remove, AnyMap.insert, AList.lookup_insert, downcast_mk]
  · simp [AnyMap.get, AnyMap.remove, AnyMap.insert, AList.lookup_erase]
  · simp [AnyMap.contains, AnyMap.remove, AnyMap.insert, AList.lookup_erase]

/-- C7: Entry `or_insert` idempotence — `entry::<T>().or_insert(d)` twice in
a row with no intervening removal returns the same stored value both times
(which is exactly what `get::<T>()` then sees), and the second call leaves
the map untouched: it finds the slot occupied and does not insert `d`
again. -/
theorem or_insert_idempotent [∀ t, Inhabited (interp t)]
    (m : AnyMap interp) (T : ι) (d : interp T) :
    (AnyMap.or_insert T d (AnyMap.or_insert T d m).2).1
        = (AnyMap.or_insert T d m).1
    ∧ (AnyMap.or_insert T d (AnyMap.or_insert T d m).2).2
        = (AnyMap.or_insert T d m).2
    ∧ AnyMap.get T (AnyMap.or_insert T d m).2
        = some (AnyMap.or_insert T d m).1 := by
  cases hl : AList.lookup T m with
  | none =>
      refine ⟨?_, ?_, ?_⟩ <;>
        simp [AnyMap.or_insert, RawMap.entry, Entry.or_insert, hl,
          AList.lookup_insert, AnyMap.get, downcast_ref_mk, downcast_mut_mk]
  | some b =>
      refine ⟨?_, ?_, ?_⟩ <;>
        simp [AnyMap.or_insert, RawMap.entry, Entry.or_insert, hl,
          AnyMap.get, downcast_ref_eq_downcast, downcast_mut_eq_downcast]

/-- C1: Type-correct storage invariant — the empty map satisfies the
invariant "every stored box's runtime type equals its key", every typed
operation (`insert::<T>`, `remove::<T>`, `clear`, the entry protocol's
`or_insert`, and writes through a `&mut T`) preserves it, and under it every
unchecked downcast is correct: the box found under the key of `T` really has
runtime type `T`, and `get`/`get_mut`/`remove` all surface its genuinely
stored payload (never the mismatch branch). -/
theorem type_correct_invariant [∀ t, Inhabited (interp t)]
    (m : AnyMap interp) (T : ι) (v : interp T) (b : BoxAny interp)
    (h : TypeCorrect m) :
    TypeCorrect (AnyMap.new interp)
    ∧ TypeCorrect (AnyMap.insert T v m).2
    ∧ TypeCorrect (AnyMap.remove T m).2
    ∧ TypeCorrect (AnyMap.clear m)
    ∧ TypeCorrect (AnyMap.or_insert T v m).2
    ∧ TypeCorrect (AnyMap.write_through T v m)
    ∧ (AList.lookup T m = some b →
        b.tid = T
        ∧ HEq (AnyMap.get T m) (some b.val)
        ∧ HEq (AnyMap.get_mut T m) (some b.val)
        ∧ HEq (AnyMap.remove T m).1 (some b.val)) := by
  refine ⟨?_, typeCorrect_insert _ v h, typeCorrect_erase _ h, ?_, ?_,
    typeCorrect_insert _ v h, ?_⟩
  · intro p hp; simp [AnyMap.new] at hp
  · intro p hp; simp [AnyMap.clear] at hp
  · unfold AnyMap.or_insert RawMap.entry
    cases hl : AList.lookup T m with
    | none => simp only [hl, Entry.or_insert]; exact typeCorrect_insert _ v h
    | some b1 => simp only [hl, Entry.or_insert]; exact h
  · intro hb
    have htid : b.tid = T := typeCorrect_lookup h hb
    obtain ⟨tid, val⟩ := b
    dsimp only at htid
    subst htid
    refine ⟨rfl, heq_of_eq ?_, heq_of_eq ?_, heq_of_eq ?_⟩
    · simp [AnyMap.get, hb, downcast_ref_mk]
    · simp [AnyMap.get_mut, hb, downcast_mut_mk]
    · simp [AnyMap.remove, hb, downcast_mk]

/-- C3: Fetcher exclusivity — in a session where `T` has not yet been
issued, `fetch::<T>()` returns exactly `map.get_mut::<T>()` (`Some` of the
stored value if `T` is present, `None` if absent) and in both cases records
`T` as issued; in any session state where `T` is already issued,
`fetch::<T>()` returns `None`, and no further fetch (of any type `S`) ever
un-issues `T` — so every second fetch of `T` in a session returns `None`,
regardless of the first call's outcome or of the first reference's
liveness. -/
theorem fetcher_exclusivity [∀ t, Inhabited (interp t)]
    (f g : Fetcher interp) (T S : ι)
    (h : T ∉ f.mask) (hg : T ∈ g.mask) :
    (Fetcher.fetch T f).1 = AnyMap.get_mut T f.map
    ∧ T ∈ (Fetcher.fetch T f).2.mask
    ∧ (Fetcher.fetch T g).1 = none
    ∧ T ∈ (Fetcher.fetch S g).2.mask := by
  refine ⟨?_, ?_, ?_, ?_⟩
  · simp [Fetcher.fetch, h]
  · by_cases hc : T ∈ f.mask <;>
      simp [Fetcher.fetch, hc, Finset.mem_insert_self]
  · simp [Fetcher.fetch, hg]
  · by_cases hc : S ∈ g.mask <;>
      simp [Fetcher.fetch, hc, Finset.mem_insert, hg]

/-- C9: Implicit — `fetch::<T>()` never modifies the underlying map: whether
it returns `Some` or `None`, the resulting session holds the very same map
(hence the same length and the same presence of every type `S`); only the
fetcher's issued-key mask changes. -/
theorem fetch_preserves_map [∀ t, Inhabited (interp t)]
    (f : Fetcher interp) (T S : ι) :
    (Fetcher.fetch T f).2.map = f.map
    ∧ AnyMap.len (Fetcher.fetch T f).2.map = AnyMap.len f.map
    ∧ AnyMap.contains S (Fetcher.fetch T f).2.map = AnyMap.contains S f.map := by
  by_cases hc : T ∈ f.mask <;> simp [Fetcher.fetch, hc]

/-- C6: Type isolation — for distinct types `A ≠ B`, every operation keyed
on `A` (`insert::<A>`, `remove::<A>`, and mutation through a reference from
`get_mut::<A>()` / `fetch::<A>()`) leaves `get::<B>()` unchanged; and in one
fetcher session with both types present and neither yet issued,
`fetch::<A>()` then `fetch::<B>()` both return `Some`, the second being
exactly `get_mut::<B>` of the untouched map — the two references address
disjoint slots, so they never alias. -/
theorem type_isolation [∀ t, Inhabited (interp t)]
    (m : AnyMap interp) (f : Fetcher interp) (A B : ι) (a : interp A)
    (hAB : A ≠ B) (hA : A ∉ f.mask) (hB : B ∉ f.mask)
    (hmA : AnyMap.contains A f.map = true)
    (hmB : AnyMap.contains B f.map = true) :
    AnyMap.get B (AnyMap.insert A a m).2 = AnyMap.get B m
    ∧ AnyMap.get B (AnyMap.remove A m).2 = AnyMap.get B m
    ∧ AnyMap.get B (AnyMap.write_through A a m) = AnyMap.get B m
    ∧ (Fetcher.fetch A f).1.isSome = true
    ∧ (Fetcher.fetch B (Fetcher.fetch A f).2).1
        = AnyMap.get_mut B f.map
    ∧ (Fetcher.fetch B (Fetcher.fetch A f).2).1.isSome = true := by
  have hBA : B ≠ A := hAB.symm
  have h2 : (Fetcher.fetch B (Fetcher.fetch A f).2).1
      = AnyMap.get_mut B f.map := by
    have hBmask : B ∉ insert A f.mask := by
      simp [Finset.mem_insert, hBA, hB]
    simp [Fetcher.fetch, hA, hBmask]
  refine ⟨?_, ?_, ?_, ?_, h2, ?_⟩
  · simp [AnyMap.get, AnyMap.insert, AList.lookup_insert_ne hBA]
  · simp [AnyMap.get, AnyMap.remove, AList.lookup_erase_ne hBA]
  · simp [AnyMap.get, AnyMap.write_through, AList.lookup_insert_ne hBA]
  · simp only [Fetcher.fetch, if_neg hA]
    simpa [AnyMap.get_mut, AnyMap.contains, Option.isSome_map] using hmA
  · rw [h2]
    simpa [AnyMap.get_mut, AnyMap.contains, Option.isSome_map] using hmB

/-- C8: Absence is not a fault — on a map holding no value of type `T`,
`get::<T>()`, `get_mut::<T>()` and `remove::<T>()` all return the empty
result `None` (and `remove` leaves the map as it was); no operation's result
type carries an error case, so absence is never a fault. -/
theorem absence_not_fault [∀ t, Inhabited (interp t)]
    (m : AnyMap interp) (T : ι) (h : AnyMap.contains T m = false) :
    AnyMap.get T m = none
    ∧ AnyMap.get_mut T m = none
    ∧ (AnyMap.remove T m).1 = none
    ∧ (AnyMap.remove T m).2 = m := by
  have hl : AList.lookup T m = none :=
    Option.not_isSome_iff_eq_none.mp (by simpa [AnyMap.contains] using h)
  refine ⟨?_, ?_, ?_, ?_⟩
  · simp [AnyMap.get, hl]
  · simp [AnyMap.get_mut, hl]
  · simp [AnyMap.remove, hl]
  · have hk : T ∉ m.entries.keys := by
      have : T ∉ m := AList.lookup_eq_none.mp hl
      simpa [AList.mem_keys, AList.keys] using this
    exact AList.ext (List.kerase_of_not_mem_keys hk)

/-- The number of entries equals the number of keys. -/
theorem len_eq_keys_length (m : AnyMap interp) :
    AnyMap.len m = m.keys.length :=
  (List.length_map m.entries Sigma.fst).symm

/-- C10: `len` counts distinct stored types — a new map has `len = 0` and
`is_empty = true`; `insert::<T>` grows `len` by exactly one when `T` was
absent and leaves it unchanged on overwrite; `remove::<T>` shrinks `len` by
exactly one when `T` was present and leaves it unchanged otherwise; `clear`
brings `len` back to `0`. -/
theorem len_counts_types [∀ t, Inhabited (interp t)]
    (m : AnyMap interp) (T : ι) (v : interp T) :
    AnyMap.len (AnyMap.new interp) = 0
    ∧ AnyMap.is_empty (AnyMap.new interp) = true
    ∧ (AnyMap.contains T m = false
        → AnyMap.len (AnyMap.insert T v m).2 = AnyMap.len m + 1)
    ∧ (AnyMap.contains T m = true
        → AnyMap.len (AnyMap.insert T v m).2 = AnyMap.len m)
    ∧ (AnyMap.contains T m = true
        → AnyMap.len (AnyMap.remove T m).2 + 1 = AnyMap.len m)
    ∧ (AnyMap.contains T m = false
        → AnyMap.len (AnyMap.remove T m).2 = AnyMap.len m)
    ∧ AnyMap.len (AnyMap.clear m) = 0 := by
  refine ⟨rfl, rfl, ?_, ?_, ?_, ?_, rfl⟩
  · intro h
    have hT : T ∉ m :=
      AList.lookup_eq_none.mp
        (Option.not_isSome_iff_eq_none.mp (by simpa [AnyMap.contains] using h))
    simp only [AnyMap.len, AnyMap.insert, AList.insert_entries_of_neg hT,
      List.length_cons]
  · intro h
    have hT : T ∈ m.keys := by
      rw [← AList.mem_keys]
      exact AList.lookup_isSome.mp (by simpa [AnyMap.contains] using h)
    have hpos : 0 < m.keys.length := List.length_pos.mpr (List.ne_nil_of_mem hT)
    rw [len_eq_keys_length, len_eq_keys_length]
    simp only [AnyMap.insert]
    rw [AList.keys_insert, List.length_cons, List.length_erase_of_mem hT]
    omega
  · intro h
    have hT : T ∈ m.keys := by
      rw [← AList.mem_keys]
      exact AList.lookup_isSome.mp (by simpa [AnyMap.contains] using h)
    have hpos : 0 < m.keys.length := List.length_pos.mpr (List.ne_nil_of_mem hT)
    rw [len_eq_keys_length, len_eq_keys_length]
    simp only [AnyMap.remove]
    rw [AList.keys_erase, List.length_erase_of_mem hT]
    omega
  · intro h
    have hl : AList.lookup T m = none :=
      Option.not_isSome_iff_eq_none.mp (by simpa [AnyMap.contains] using h)
    have hk : T ∉ m.entries.keys := by
      have : T ∉ m := AList.lookup_eq_none.mp hl
      simpa [AList.mem_keys, AList.keys] using this
    simp [AnyMap.len, AnyMap.remove, AList.erase,
      List.kerase_of_not_mem_keys hk]

/-- Witness for C1: the invariant is established from the empty map by a
fresh insert (key 0 into `new`, key 2 into `mW`, the vacant `or_insert` at
key 2), preserved by every operation on the concrete map `mW`, and the
downcast-correctness conclusion is exercised at `mW`'s occupied key 0. -/
theorem type_correct_invariant_witness :
    TypeCorrect mW ∧ AList.lookup 0 mW = some ⟨0, 5⟩
    ∧ TypeCorrect (AnyMap.new natInterp)
    ∧ TypeCorrect (AnyMap.insert 0 7 (AnyMap.new natInterp)).2
    ∧ TypeCorrect (AnyMap.insert 0 7 mW).2
    ∧ TypeCorrect (AnyMap.insert 2 7 mW).2
    ∧ TypeCorrect (AnyMap.remove 0 mW).2
    ∧ TypeCorrect (AnyMap.clear mW)
    ∧ TypeCorrect (AnyMap.or_insert 0 7 mW).2
    ∧ TypeCorrect (AnyMap.or_insert 2 7 mW).2
    ∧ TypeCorrect (AnyMap.write_through 0 7 mW)
    ∧ BoxAny.tid (⟨0, 5⟩ : BoxAny natInterp) = 0
    ∧ HEq (AnyMap.get 0 mW) (some (BoxAny.val (⟨0, 5⟩ : BoxAny natInterp)))
    ∧ HEq (AnyMap.get_mut 0 mW)
        (some (BoxAny.val (⟨0, 5⟩ : BoxAny natInterp)))
    ∧ HEq (AnyMap.remove 0 mW).1
        (some (BoxAny.val (⟨0, 5⟩ : BoxAny natInterp))) :=
  ⟨by decide, rfl,
    (type_correct_invariant mW 0 7 ⟨0, 5⟩ (by decide)).1,
    (type_correct_invariant (AnyMap.new natInterp) 0 7 ⟨0, 5⟩ (by decide)).2.1,
    (type_correct_invariant mW 0 7 ⟨0, 5⟩ (by decide)).2.1,
    (type_correct_invariant mW 2 7 ⟨2, 7⟩ (by decide)).2.1,
    (type_correct_invariant mW 0 7 ⟨0, 5⟩ (by decide)).2.2.1,
    (type_correct_invariant mW 0 7 ⟨0, 5⟩ (by decide)).2.2.2.1,
    (type_correct_invariant mW 0 7 ⟨0, 5⟩ (by decide)).2.2.2.2.1,
    (type_correct_invariant mW 2 7 ⟨2, 7⟩ (by decide)).2.2.2.2.1,
    (type_correct_invariant mW 0 7 ⟨0, 5⟩ (by decide)).2.2.2.2.2.1,
    ((type_correct_invariant mW 0 7 ⟨0, 5⟩ (by decide)).2.2.2.2.2.2 rfl).1,
    ((type_correct_invariant mW 0 7 ⟨0, 5⟩ (by decide)).2.2.2.2.2.2 rfl).2.1,
    ((type_correct_invariant mW 0 7 ⟨0, 5⟩ (by decide)).2.2.2.2.2.2 rfl).2.2.1,
    ((type_correct_invariant mW 0 7 ⟨0, 5⟩ (by decide)).2.2.2.2.2.2 rfl).2.2.2⟩

/-- Witness for C3: key 0 of a fresh session over `mW`, then again in the
state `gW` that has already issued it, interleaving a fetch of key 1. -/
theorem fetcher_exclusivity_witness :
    (0 : Nat) ∉ fW.mask ∧ (0 : Nat) ∈ gW.mask
    ∧ ((Fetcher.fetch 0 fW).1 = AnyMap.get_mut 0 fW.map
        ∧ (0 : Nat) ∈ (Fetcher.fetch 0 fW).2.mask
        ∧ (Fetcher.fetch 0 gW).1 = none
        ∧ (0 : Nat) ∈ (Fetcher.fetch 1 gW).2.mask) :=
  ⟨by decide, by decide, fetcher_exclusivity fW gW 0 1 (by decide) (by decide)⟩

/-- Witness for C4: `mW` holds 5 under key 0, the fresh map holds nothing. -/
theorem insert_returns_prior_witness :
    AnyMap.get 0 mW = some 5
    ∧ AnyMap.contains 0 (AnyMap.new natInterp) = false
    ∧ ((AnyMap.insert 0 7 mW).1 = some 5
        ∧ AnyMap.get 0 (AnyMap.insert 0 7 mW).2 = some 7
        ∧ (AnyMap.insert 0 7 (AnyMap.new natInterp)).1 = none) :=
  ⟨by decide, by decide,
    insert_returns_prior mW (AnyMap.new natInterp) 0 5 7 (by decide) (by decide)⟩

/-- Witness for C6: keys 0 and 1 are distinct, both present in `mW`, neither
issued in the fresh session `fW`. -/
theorem type_isolation_witness :
    (0 : Nat) ≠ 1 ∧ (0 : Nat) ∉ fW.mask ∧ (1 : Nat) ∉ fW.mask
    ∧ AnyMap.contains 0 fW.map = true ∧ AnyMap.contains 1 fW.map = true
    ∧ (AnyMap.get 1 (AnyMap.insert 0 7 mW).2 = AnyMap.get 1 mW
        ∧ AnyMap.get 1 (AnyMap.remove 0 mW).2 = AnyMap.get 1 mW
        ∧ AnyMap.get 1 (AnyMap.write_through 0 7 mW) = AnyMap.get 1 mW
        ∧ (Fetcher.fetch 0 fW).1.isSome = true
        ∧ (Fetcher.fetch 1 (Fetcher.fetch 0 fW).2).1 = AnyMap.get_mut 1 fW.map
        ∧ (Fetcher.fetch 1 (Fetcher.fetch 0 fW).2).1.isSome = true) :=
  ⟨by decide, by decide, by decide, by decide, by decide,
    type_isolation mW fW 0 1 7 (by decide) (by decide) (by decide)
      (by decide) (by decide)⟩

/-- Witness for C8: no value is stored under key 2 in `mW`. -/
theorem absence_not_fault_witness :
    AnyMap.contains 2 mW = false
    ∧ (AnyMap.get 2 mW = none
        ∧ AnyMap.get_mut 2 mW = none
        ∧ (AnyMap.remove 2 mW).1 = none
        ∧ (AnyMap.remove 2 mW).2 = mW) :=
  ⟨by decide, absence_not_fault mW 2 (by decide)⟩

/-- Witness for C10, discharging both the present branch (key 0 of `mW`) and
the absent branch (key 2). -/
theorem len_counts_types_witness :
    AnyMap.contains 0 mW = true ∧ AnyMap.contains 2 mW = false
    ∧ AnyMap.len (AnyMap.new natInterp) = 0
    ∧ AnyMap.is_empty (AnyMap.new natInterp) = true
    ∧ AnyMap.len (AnyMap.insert 0 7 mW).2 = AnyMap.len mW
    ∧ AnyMap.len (AnyMap.remove 0 mW).2 + 1 = AnyMap.len mW
    ∧ AnyMap.len (AnyMap.insert 2 7 mW).2 = AnyMap.len mW + 1
    ∧ AnyMap.len (AnyMap.remove 2 mW).2 = AnyMap.len mW
    ∧ AnyMap.len (AnyMap.clear mW) = 0 :=
  ⟨by decide, by decide,
    (len_counts_types mW 0 7).1,
    (len_counts_types mW 0 7).2.1,
    (len_counts_types mW 0 7).2.2.2.1 (by decide),
    (len_counts_types mW 0 7).2.2.2.2.1 (by decide),
    (len_counts_types mW 2 7).2.2.1 (by decide),
    (len_counts_types mW 2 7).2.2.2.2.2.1 (by decide),
    (len_counts_types mW 0 7).2.2.2.2.2.2⟩

end Anymap
